import Mathlib

set_option linter.unusedVariables false

/-!
Shallow embedding of the wallet / tip / referral core of the Givta backend
(`src/services/WalletService.ts`, `src/services/ReferralService.ts`,
`src/models/*.ts`), together with theorems checking the natural-language
specification against it.

Modelling conventions:
* Firestore collections become Lean lists; a query `where('f','==',x).limit(1)`
  becomes `List.find?`, and a document update becomes an in-place replacement
  of the first matching element.
* JS `number` amounts become `Int` (minor currency units); `Date` values become
  `Int` day indices (only orderings and 30-day offsets are ever used).
* `Math.round(amount * 0.02)` on integer minor units is exact rational
  rounding half-toward-plus-infinity of `amount / 50`, i.e. `(amount + 25)
  floor-divided by 50`; for the integer ranges the service handles the
  floating-point computation never deviates from this value.
* Random uuids for referral documents become a fresh-id counter on the store;
  document ids that are never read back (transactions, tips, wallets keyed 1:1
  by `userId`) are elided.
* Each `await` on a store write can throw in JS; `processTip` therefore takes a
  `failAt` parameter naming the first write that throws (numbered in program
  order), `none` meaning every write succeeds.  The surrounding `try/catch`
  keeps all effects already applied and returns a failure result, exactly as
  the TypeScript `catch` block does.
-/

namespace Givta

/-- Transaction type union from `src/models/Transaction.ts`. -/
inductive TxType where
  | deposit
  | withdrawal
  | tip_sent
  | tip_received
  | referral_bonus
  | fee
deriving DecidableEq, Repr

/-- Transaction status union from `src/models/Transaction.ts`. -/
inductive TxStatus where
  | pending
  | processing
  | completed
  | failed
  | cancelled
deriving DecidableEq, Repr

/-- Referral status union from `src/models/Referral.ts`. -/
inductive RefStatus where
  | pending
  | completed
  | cancelled
deriving DecidableEq, Repr

/-- Tip / referral originating platform. -/
inductive Platform where
  | whatsapp
  | mobile_app
deriving DecidableEq, Repr

/-- Wallet document (`IWallet`); doc id, active flag and pin fields elided
(never consulted by the operations under verification). -/
structure Wallet where
  userId : String
  balance : Int
  currency : String
  totalDeposits : Int
  totalWithdrawals : Int
  totalTipsSent : Int
  totalTipsReceived : Int
  totalReferralEarnings : Int
deriving DecidableEq, Repr

/-- Transaction document (`ITransaction`); doc id, counter-party ids,
reference and metadata elided. -/
structure Transaction where
  userId : String
  type : TxType
  amount : Int
  description : String
  status : TxStatus
  currency : String
  fee : Int
  netAmount : Int
  createdAt : Int
deriving DecidableEq, Repr

/-- Tip document written by `processTip`. -/
structure Tip where
  senderId : String
  recipientId : String
  amount : Int
  description : String
  isAnonymous : Bool
  status : TxStatus
  currency : String
  fee : Int
  netAmount : Int
  platform : Platform
  createdAt : Int
deriving DecidableEq, Repr

/-- Referral document (`IReferral`); uuid modelled as a `Nat` drawn from the
store's fresh-id counter, referral code elided. -/
structure Referral where
  id : Nat
  referrerId : String
  referredId : String
  level : Nat
  bonus : Int
  status : RefStatus
deriving DecidableEq, Repr

/-- User document (`IUser`), restricted to the fields the referral cascade
reads. -/
structure User where
  id : String
  referralCode : String
  referredBy : Option String
  createdAt : Int
deriving DecidableEq, Repr

/-- The Firestore collections consumed by the core, plus a fresh-id counter. -/
structure DB where
  wallets : List Wallet
  transactions : List Transaction
  tips : List Tip
  referrals : List Referral
  users : List User
  nextId : Nat
deriving DecidableEq, Repr

/-- Result shape `TransactionResult` from `WalletService.ts` (transaction id elided). -/
structure TransactionResult where
  success : Bool
  newBalance : Option Int
  error : Option String
deriving DecidableEq, Repr

/-- Successful `TransactionResult` carrying the new balance. -/
def TransactionResult.ok (newBalance : Int) : TransactionResult :=
  ⟨true, some newBalance, none⟩

/-- Failed `TransactionResult` carrying the thrown error message. -/
def TransactionResult.failure (e : String) : TransactionResult :=
  ⟨false, none, some e⟩

/-- Result shape `ReferralResult` from `ReferralService.ts` (referral id elided). -/
structure ReferralResult where
  success : Bool
  bonusProcessed : Bool
  error : Option String
deriving DecidableEq, Repr

/-! ### WalletService -/

/-- Embeds `WalletService.getWalletByUserId`: first wallet whose `userId` matches. -/
def getWalletByUserId (db : DB) (userId : String) : Option Wallet :=
  db.wallets.find? (fun w => w.userId == userId)

/-- Firestore `doc(wallet.id).update(...)`: replace the (first) wallet found
for this user id. -/
def setWallet : List Wallet → String → Wallet → List Wallet
  | [], _, _ => []
  | w :: ws, userId, w2 =>
      if w.userId = userId then w2 :: ws else w :: setWallet ws userId w2

/-- Embeds `WalletModel.createWalletData`: zero balances and totals. -/
def createWalletData (userId currency : String) : Wallet :=
  { userId := userId, balance := 0, currency := currency, totalDeposits := 0,
    totalWithdrawals := 0, totalTipsSent := 0, totalTipsReceived := 0,
    totalReferralEarnings := 0 }

/-- Embeds `WalletService.creditWallet`: no positivity check on `amount`; always bumps
`totalDeposits` and writes one completed `deposit` transaction. -/
def creditWallet (db : DB) (now : Int) (userId : String) (amount : Int)
    (description : String) : TransactionResult × DB :=
  match getWalletByUserId db userId with
  | none => (TransactionResult.failure "Wallet not found", db)
  | some wallet =>
      let newBalance := wallet.balance + amount
      let updatedWallet :=
        { wallet with balance := newBalance,
                      totalDeposits := wallet.totalDeposits + amount }
      let tx : Transaction :=
        { userId := userId, type := TxType.deposit, amount := amount,
          description := description, status := TxStatus.completed,
          currency := wallet.currency, fee := 0, netAmount := amount,
          createdAt := now }
      (TransactionResult.ok newBalance,
        { db with wallets := setWallet db.wallets userId updatedWallet,
                  transactions := db.transactions ++ [tx] })

/-- Embeds `WalletService.debitWallet`: fails on a missing wallet or
`wallet.balance < amount`; no positivity check on `amount`. -/
def debitWallet (db : DB) (now : Int) (userId : String) (amount : Int)
    (description : String) (fee : Int) : TransactionResult × DB :=
  match getWalletByUserId db userId with
  | none => (TransactionResult.failure "Wallet not found", db)
  | some wallet =>
      if wallet.balance < amount then
        (TransactionResult.failure "Insufficient balance", db)
      else
        let newBalance := wallet.balance - amount
        let updatedWallet :=
          { wallet with balance := newBalance,
                        totalWithdrawals := wallet.totalWithdrawals + amount }
        let tx : Transaction :=
          { userId := userId, type := TxType.withdrawal, amount := -amount,
            description := description, status := TxStatus.completed,
            currency := wallet.currency, fee := fee,
            netAmount := amount - fee, createdAt := now }
        (TransactionResult.ok newBalance,
          { db with wallets := setWallet db.wallets userId updatedWallet,
                    transactions := db.transactions ++ [tx] })

/-- Embeds `Math.round(amount * 0.02)` on integer minor units: round
`amount / 50` half-toward-plus-infinity (exact for the handled ranges). -/
def tipFee (amount : Int) : Int := (amount + 25) / 50

/-- Second half of `WalletService.processTip`, from the fee computation on
(the part after both wallets have been loaded / lazily created).  `failAt`
names the first store write that throws, in program order:
1 = sender wallet update, 2 = recipient wallet update, 3 = tip record,
4 = fee transaction, 5 = sender transaction, 6 = recipient transaction. -/
def processTipSettle (db : DB) (now : Int) (senderId recipientId : String)
    (amount : Int) (platform : Platform) (description : Option String)
    (isAnonymous : Bool) (failAt : Option Nat)
    (senderWallet recipientWallet : Wallet) : TransactionResult × DB :=
  let fee := tipFee amount
  let netAmount := amount - fee
  if senderWallet.balance < amount then
    (TransactionResult.failure "Insufficient balance", db)
  else
    let senderNewBalance := senderWallet.balance - amount
    let updatedSenderWallet :=
      { senderWallet with balance := senderNewBalance,
                          totalTipsSent := senderWallet.totalTipsSent + amount }
    let recipientNewBalance := recipientWallet.balance + netAmount
    let updatedRecipientWallet :=
      { recipientWallet with
          balance := recipientNewBalance,
          totalTipsReceived := recipientWallet.totalTipsReceived + netAmount }
    if failAt = some 1 then (TransactionResult.failure "Failed to process tip", db)
    else
      let db1 := { db with wallets := setWallet db.wallets senderId updatedSenderWallet }
      if failAt = some 2 then (TransactionResult.failure "Failed to process tip", db1)
      else
        let db2 := { db1 with
          wallets := setWallet db1.wallets recipientId updatedRecipientWallet }
        if failAt = some 3 then (TransactionResult.failure "Failed to process tip", db2)
        else
          let tipRecord : Tip :=
            { senderId := senderId, recipientId := recipientId, amount := amount,
              description := description.getD
                ("Tip received from " ++ (if isAnonymous then "Anonymous" else "a user")),
              isAnonymous := isAnonymous, status := TxStatus.completed,
              currency := senderWallet.currency, fee := fee,
              netAmount := netAmount, platform := platform, createdAt := now }
          let db3 := { db2 with tips := db2.tips ++ [tipRecord] }
          let senderTransaction : Transaction :=
            { userId := senderId, type := TxType.tip_sent, amount := -amount,
              description := "Tip sent to " ++ recipientId,
              status := TxStatus.completed, currency := senderWallet.currency,
              fee := fee, netAmount := -amount, createdAt := now }
          let recipientTransaction : Transaction :=
            { userId := recipientId, type := TxType.tip_received, amount := netAmount,
              description := "Tip received from " ++
                (if isAnonymous then "Anonymous" else senderId),
              status := TxStatus.completed, currency := recipientWallet.currency,
              fee := 0, netAmount := netAmount, createdAt := now }
          let finishTx : DB → TransactionResult × DB := fun dbx =>
            if failAt = some 5 then (TransactionResult.failure "Failed to process tip", dbx)
            else
              let dbx1 := { dbx with transactions := dbx.transactions ++ [senderTransaction] }
              if failAt = some 6 then (TransactionResult.failure "Failed to process tip", dbx1)
              else
                (TransactionResult.ok senderNewBalance,
                  { dbx1 with
                      transactions := dbx1.transactions ++ [recipientTransaction] })
          if 0 < fee then
            if failAt = some 4 then (TransactionResult.failure "Failed to process tip", db3)
            else
              let feeTransaction : Transaction :=
                { userId := senderId, type := TxType.fee, amount := -fee,
                  description := "Tip processing fee", status := TxStatus.completed,
                  currency := senderWallet.currency, fee := 0,
                  netAmount := -fee, createdAt := now }
              finishTx { db3 with transactions := db3.transactions ++ [feeTransaction] }
          else
            finishTx db3

/-- Embeds `WalletService.processTip`.  Rejects self tips, requires the sender's
wallet, lazily creates the recipient's wallet (`failAt = some 0` makes that
creation write throw), then settles.  Note: no call to
`validateTransactionLimits` occurs anywhere in this flow, mirroring the
source. -/
def processTip (db : DB) (now : Int) (senderId recipientId : String)
    (amount : Int) (platform : Platform) (description : Option String)
    (isAnonymous : Bool) (failAt : Option Nat) : TransactionResult × DB :=
  if senderId = recipientId then
    (TransactionResult.failure "Cannot tip yourself", db)
  else
    match getWalletByUserId db senderId with
    | none => (TransactionResult.failure "Sender wallet not found", db)
    | some senderWallet =>
        match getWalletByUserId db recipientId with
        | some recipientWallet =>
            processTipSettle db now senderId recipientId amount platform
              description isAnonymous failAt senderWallet recipientWallet
        | none =>
            if failAt = some 0 then
              (TransactionResult.failure "Failed to process tip", db)
            else
              let recipientWallet := createWalletData recipientId senderWallet.currency
              let db0 := { db with wallets := db.wallets ++ [recipientWallet] }
              processTipSettle db0 now senderId recipientId amount platform
                description isAnonymous failAt senderWallet recipientWallet

/-- Embeds `WalletService.processReferralBonus`: credits the referrer's wallet,
bumps `totalReferralEarnings`, writes one completed `referral_bonus`
transaction. -/
def processReferralBonus (db : DB) (now : Int) (referrerId referredId : String)
    (level : Nat) (bonusAmount : Int) : TransactionResult × DB :=
  match getWalletByUserId db referrerId with
  | none => (TransactionResult.failure "Referrer wallet not found", db)
  | some wallet =>
      let newBalance := wallet.balance + bonusAmount
      let updatedWallet :=
        { wallet with balance := newBalance,
                      totalReferralEarnings := wallet.totalReferralEarnings + bonusAmount }
      let tx : Transaction :=
        { userId := referrerId, type := TxType.referral_bonus,
          amount := bonusAmount,
          description := "Referral bonus for level " ++ toString level ++ " referral",
          status := TxStatus.completed, currency := wallet.currency, fee := 0,
          netAmount := bonusAmount, createdAt := now }
      (TransactionResult.ok newBalance,
        { db with wallets := setWallet db.wallets referrerId updatedWallet,
                  transactions := db.transactions ++ [tx] })

/-! ### Limit & validation policy -/

/-- The `type` argument of `validateTransactionLimits`. -/
inductive LimitKind where
  | tip
  | withdrawal
  | deposit
deriving DecidableEq, Repr

/-- One entry of the `limits` table in `validateTransactionLimits`. -/
structure TxLimits where
  minimum : Int
  maximum : Int
  dailyLimit : Int
deriving DecidableEq, Repr

/-- The `limits` table. -/
def limitsFor : LimitKind → TxLimits
  | LimitKind.tip => ⟨10, 50000, 100000⟩
  | LimitKind.withdrawal => ⟨100, 500000, 1000000⟩
  | LimitKind.deposit => ⟨100, 2000000, 5000000⟩

/-- Transaction type whose history counts against a limit kind's daily cap:
`type === (type === 'tip' ? 'tip_sent' : type)`. -/
def limitTxType : LimitKind → TxType
  | LimitKind.tip => TxType.tip_sent
  | LimitKind.withdrawal => TxType.withdrawal
  | LimitKind.deposit => TxType.deposit

/-- The violated bound reported by `validateTransactionLimits` (the source
formats it as a human-readable string). -/
inductive LimitErr where
  | belowMinimum (kind : LimitKind) (minimum : Int)
  | aboveMaximum (kind : LimitKind) (maximum : Int)
  | dailyLimitExceeded (kind : LimitKind) (dailyLimit : Int)
deriving DecidableEq, Repr

/-- Result shape `{ valid: boolean; error?: string }`. -/
structure LimitValidation where
  valid : Bool
  error : Option LimitErr
deriving DecidableEq, Repr

/-- Sum of `Math.abs(t.amount)` over same-type transactions created since the
local midnight `today`. -/
def todayTypeTotal (userTransactions : List Transaction) (t : TxType)
    (today : Int) : Int :=
  ((userTransactions.filter
      (fun tx => decide (today ≤ tx.createdAt) && (tx.type == t))).map
    (fun tx => |tx.amount|)).sum

/-- Embeds `WalletService.validateTransactionLimits`: minimum, then maximum, then
daily-cap check against same-type transactions created since `today`
(the caller's local midnight). -/
def validateTransactionLimits (amount : Int) (kind : LimitKind)
    (userTransactions : List Transaction) (today : Int) : LimitValidation :=
  let limit := limitsFor kind
  if amount < limit.minimum then
    ⟨false, some (LimitErr.belowMinimum kind limit.minimum)⟩
  else if limit.maximum < amount then
    ⟨false, some (LimitErr.aboveMaximum kind limit.maximum)⟩
  else
    let todayTotal := todayTypeTotal userTransactions (limitTxType kind) today
    if limit.dailyLimit < todayTotal + amount then
      ⟨false, some (LimitErr.dailyLimitExceeded kind limit.dailyLimit)⟩
    else
      ⟨true, none⟩

/-! ### ReferralService -/

/-- Embeds `ReferralService.REFERRAL_BONUSES`: level 1 = 100, level 2 = 50,
level 3 = 25. -/
def REFERRAL_BONUSES : Nat → Int
  | 1 => 100
  | 2 => 50
  | 3 => 25
  | _ => 0

/-- Embeds `ReferralService.MIN_ACTIVE_DAYS`. -/
def MIN_ACTIVE_DAYS : Int := 30

/-- Embeds `ReferralService.getUserById` (document lookup by id). -/
def getUserById (db : DB) (userId : String) : Option User :=
  db.users.find? (fun u => u.id == userId)

/-- Embeds `ReferralService.getReferralByUsers`: first referral matching the
(referrer, referred) pair, any level. -/
def getReferralByUsers (db : DB) (referrerId referredId : String) : Option Referral :=
  db.referrals.find?
    (fun x => (x.referrerId == referrerId) && (x.referredId == referredId))

/-- Embeds `ReferralService.checkLevel3Eligibility`: the user exists and its
account-creation date is at least `MIN_ACTIVE_DAYS` days in the past. -/
def checkLevel3Eligibility (db : DB) (now : Int) (userId : String) : Bool :=
  match getUserById db userId with
  | none => false
  | some user => decide (user.createdAt ≤ now - MIN_ACTIVE_DAYS)

/-- Embeds `ReferralService.createHigherLevelReferral`: writes a pending referral
record, credits the bonus, and marks the record completed when the credit
succeeded (record kept pending otherwise). -/
def createHigherLevelReferral (db : DB) (now : Int)
    (referrerId referredId : String) (level : Nat) (bonus : Int) : DB :=
  let rid := db.nextId
  let rec0 : Referral :=
    { id := rid, referrerId := referrerId, referredId := referredId,
      level := level, bonus := bonus, status := RefStatus.pending }
  let db1 := { db with referrals := db.referrals ++ [rec0], nextId := db.nextId + 1 }
  let r := processReferralBonus db1 now referrerId referredId level bonus
  if r.1.success then
    let completed := r.2.referrals.map
      (fun x => if x.id = rid then { x with status := RefStatus.completed } else x)
    { r.2 with referrals := completed }
  else
    r.2

/-- Embeds `ReferralService.processHigherLevelReferrals`: level 2 when the level-1
referrer itself has a referrer, then level 3 when the level-2 referrer has a
referrer and passes the 30-day eligibility check.  Mirrors the source: the
level-3 branch runs regardless of whether the level-2 bonus succeeded. -/
def processHigherLevelReferrals (db : DB) (now : Int)
    (referrerId referredId : String) : DB :=
  match getUserById db referrerId with
  | none => db
  | some referrer =>
      match referrer.referredBy with
      | none => db
      | some r2id =>
          let db1 := createHigherLevelReferral db now r2id referredId 2
            (REFERRAL_BONUSES 2)
          match getUserById db1 r2id with
          | none => db1
          | some level2Referrer =>
              match level2Referrer.referredBy with
              | none => db1
              | some r3id =>
                  if checkLevel3Eligibility db1 now level2Referrer.id then
                    createHigherLevelReferral db1 now r3id referredId 3
                      (REFERRAL_BONUSES 3)
                  else
                    db1

/-- Embeds `ReferralService.processReferral`: validates the referrer, rejects an
existing (referrer, referred) record, writes the pending level-1 record,
credits the level-1 bonus, and cascades to higher levels only when that
bonus succeeded. -/
def processReferral (db : DB) (now : Int)
    (referrerId referredId : String) : ReferralResult × DB :=
  match getUserById db referrerId with
  | none => (⟨false, false, some "Referrer not found"⟩, db)
  | some _referrer =>
      match getReferralByUsers db referrerId referredId with
      | some _ => (⟨false, false, some "Referral already exists"⟩, db)
      | none =>
          let rid := db.nextId
          let rec0 : Referral :=
            { id := rid, referrerId := referrerId, referredId := referredId,
              level := 1, bonus := REFERRAL_BONUSES 1, status := RefStatus.pending }
          let db1 := { db with referrals := db.referrals ++ [rec0],
                               nextId := db.nextId + 1 }
          let r := processReferralBonus db1 now referrerId referredId 1
            (REFERRAL_BONUSES 1)
          if r.1.success then
            let completed := r.2.referrals.map
              (fun x => if x.id = rid then { x with status := RefStatus.completed } else x)
            let db2 := { r.2 with referrals := completed }
            let db3 := processHigherLevelReferrals db2 now referrerId referredId
            (⟨true, true, none⟩, db3)
          else
            (⟨true, false, none⟩, r.2)

/-! ### Operation language for the balance invariant -/

/-- One balance-mutating call from the claim's operation set. -/
inductive WalletOp where
  | credit (userId : String) (amount : Int)
  | debit (userId : String) (amount : Int) (fee : Int)
  | referralBonus (referrerId referredId : String) (level : Nat) (bonus : Int)
  | tip (senderId recipientId : String) (amount : Int) (platform : Platform)
deriving DecidableEq, Repr

/-- Store effect of one operation (happy path: all writes succeed). -/
def applyOp (now : Int) (db : DB) : WalletOp → DB
  | WalletOp.credit u a => (creditWallet db now u a "credit").2
  | WalletOp.debit u a f => (debitWallet db now u a "debit" f).2
  | WalletOp.referralBonus r u l b => (processReferralBonus db now r u l b).2
  | WalletOp.tip s r a p => (processTip db now s r a p none false none).2

/-- Store effect of a sequence of operations. -/
def applyOps (db : DB) (now : Int) (ops : List WalletOp) : DB :=
  ops.foldl (applyOp now) db

/-- The spec's wallet invariant: every wallet balance is nonnegative. -/
def nonNegBalances (db : DB) : Prop :=
  ∀ w ∈ db.wallets, 0 ≤ w.balance

instance (db : DB) : Decidable (nonNegBalances db) :=
  inferInstanceAs (Decidable (∀ w ∈ db.wallets, 0 ≤ w.balance))

/-- Amount fields of an operation, as constrained by the spec's
`amount > 0` / bonus-schedule preconditions (weakened to nonnegativity). -/
def WalletOp.amountsNonNeg : WalletOp → Prop
  | WalletOp.credit _ a => 0 ≤ a
  | WalletOp.debit _ a _ => 0 ≤ a
  | WalletOp.referralBonus _ _ _ b => 0 ≤ b
  | WalletOp.tip _ _ a _ => 0 ≤ a

instance (op : WalletOp) : Decidable op.amountsNonNeg := by
  cases op <;> (unfold WalletOp.amountsNonNeg) <;> infer_instance

/-! ### Spec-worded definitions (for refinement comparisons) -/

/-- Modelled from the spec: `round(grossAmount * feeRate)` with "rounding
half-up to the nearest minor currency unit", for a rational `num / den`,
`den > 0`. -/
def roundHalfUp (num den : Int) : Int := (2 * num + den) / (2 * den)

/-! ### Helper lemmas -/

theorem mem_setWallet {ws : List Wallet} {userId : String} {w2 w' : Wallet}
    (h : w' ∈ setWallet ws userId w2) : w' = w2 ∨ w' ∈ ws := by
  induction ws with
  | nil => simp [setWallet] at h
  | cons w tl ih =>
      by_cases hw : w.userId = userId
      · rw [setWallet, if_pos hw] at h
        rcases List.mem_cons.mp h with h1 | h1
        · exact Or.inl h1
        · exact Or.inr (List.mem_cons_of_mem _ h1)
      · rw [setWallet, if_neg hw] at h
        rcases List.mem_cons.mp h with h1 | h1
        · exact Or.inr (h1 ▸ List.mem_cons_self _ _)
        · rcases ih h1 with h2 | h2
          · exact Or.inl h2
          · exact Or.inr (List.mem_cons_of_mem _ h2)

theorem find?_setWallet_ne (ws : List Wallet) {userId userId' : String}
    {w2 : Wallet} (hne : userId' ≠ userId) (hw2 : w2.userId = userId) :
    (setWallet ws userId w2).find? (fun w => w.userId == userId') =
      ws.find? (fun w => w.userId == userId') := by
  induction ws with
  | nil => rfl
  | cons w tl ih =>
      by_cases hw : w.userId = userId
      · rw [setWallet, if_pos hw]
        have h1 : (w2.userId == userId') = false := by
          simp [hw2, (Ne.symm hne)]
        have h2 : (w.userId == userId') = false := by
          simp [hw, (Ne.symm hne)]
        simp [List.find?_cons, h1, h2]
      · rw [setWallet, if_neg hw]
        by_cases hw' : w.userId = userId'
        · simp [List.find?_cons, hw']
        · have h2 : (w.userId == userId') = false := by simp [hw']
          simp [List.find?_cons, h2, ih]

theorem find?_setWallet_self {ws : List Wallet} {userId : String}
    {w w2 : Wallet} (h : ws.find? (fun x => x.userId == userId) = some w)
    (hw2 : w2.userId = userId) :
    (setWallet ws userId w2).find? (fun x => x.userId == userId) = some w2 := by
  induction ws with
  | nil => simp at h
  | cons x tl ih =>
      by_cases hx : x.userId = userId
      · rw [setWallet, if_pos hx]
        simp [List.find?_cons, hw2]
      · rw [setWallet, if_neg hx]
        have h2 : (x.userId == userId) = false := by simp [hx]
        rw [List.find?_cons_of_neg _ (by simp [hx])] at h
        simp only [List.find?_cons, h2]
        exact ih h

theorem tipFee_nonneg {a : Int} (h : 0 ≤ a) : 0 ≤ tipFee a := by
  unfold tipFee; omega

theorem tipFee_le {a : Int} (h : 0 ≤ a) : tipFee a ≤ a := by
  unfold tipFee; omega

/-- Full evaluation of the settlement half of `processTip` when no write
throws and the sender's balance is sufficient. -/
theorem processTipSettle_eq {db : DB} {now : Int} {s r : String} {a : Int}
    {p : Platform} {d : Option String} {anon : Bool} {sw rw : Wallet}
    (hbal : ¬ sw.balance < a) :
    processTipSettle db now s r a p d anon none sw rw =
      (TransactionResult.ok (sw.balance - a),
       { db with
           wallets := setWallet
             (setWallet db.wallets s
               { sw with balance := sw.balance - a,
                         totalTipsSent := sw.totalTipsSent + a }) r
             { rw with balance := rw.balance + (a - tipFee a),
                       totalTipsReceived := rw.totalTipsReceived + (a - tipFee a) },
           tips := db.tips ++
             [{ senderId := s, recipientId := r, amount := a,
                description := d.getD
                  ("Tip received from " ++ (if anon then "Anonymous" else "a user")),
                isAnonymous := anon, status := TxStatus.completed,
                currency := sw.currency, fee := tipFee a,
                netAmount := a - tipFee a, platform := p, createdAt := now }],
           transactions := db.transactions ++
             (if 0 < tipFee a then
               [{ userId := s, type := TxType.fee, amount := -tipFee a,
                  description := "Tip processing fee", status := TxStatus.completed,
                  currency := sw.currency, fee := 0, netAmount := -tipFee a,
                  createdAt := now }]
             else []) ++
             [{ userId := s, type := TxType.tip_sent, amount := -a,
                description := "Tip sent to " ++ r, status := TxStatus.completed,
                currency := sw.currency, fee := tipFee a, netAmount := -a,
                createdAt := now },
              { userId := r, type := TxType.tip_received, amount := a - tipFee a,
                description := "Tip received from " ++ (if anon then "Anonymous" else s),
                status := TxStatus.completed, currency := rw.currency, fee := 0,
                netAmount := a - tipFee a, createdAt := now }] }) := by
  unfold processTipSettle
  rw [if_neg hbal]
  by_cases hfee : 0 < tipFee a
  · simp only [if_pos hfee, if_neg (by simp : ¬ (none : Option Nat) = some 1),
      if_neg (by simp : ¬ (none : Option Nat) = some 2),
      if_neg (by simp : ¬ (none : Option Nat) = some 3),
      if_neg (by simp : ¬ (none : Option Nat) = some 4),
      if_neg (by simp : ¬ (none : Option Nat) = some 5),
      if_neg (by simp : ¬ (none : Option Nat) = some 6)]
    simp [List.append_assoc]
  · simp only [if_neg hfee, if_neg (by simp : ¬ (none : Option Nat) = some 1),
      if_neg (by simp : ¬ (none : Option Nat) = some 2),
      if_neg (by simp : ¬ (none : Option Nat) = some 3),
      if_neg (by simp : ¬ (none : Option Nat) = some 5),
      if_neg (by simp : ¬ (none : Option Nat) = some 6)]
    simp [List.append_assoc]

theorem nonNeg_creditWallet {db : DB} {now : Int} {u : String} {a : Int}
    {d : String} (h : nonNegBalances db) (ha : 0 ≤ a) :
    nonNegBalances (creditWallet db now u a d).2 := by
  unfold creditWallet
  cases hfind : getWalletByUserId db u with
  | none => exact h
  | some w =>
      intro w' hw'
      simp only at hw'
      rcases mem_setWallet hw' with rfl | hmem
      · have hwb : 0 ≤ w.balance :=
          h w (List.mem_of_find?_eq_some hfind)
        simp only
        omega
      · exact h w' hmem

theorem nonNeg_debitWallet {db : DB} {now : Int} {u : String} {a f : Int}
    {d : String} (h : nonNegBalances db) :
    nonNegBalances (debitWallet db now u a d f).2 := by
  unfold debitWallet
  cases hfind : getWalletByUserId db u with
  | none => exact h
  | some w =>
      by_cases hbal : w.balance < a
      · simpa [hbal] using h
      · simp only [if_neg hbal]
        intro w' hw'
        simp only at hw'
        rcases mem_setWallet hw' with rfl | hmem
        · simp only
          omega
        · exact h w' hmem

theorem nonNeg_processReferralBonus {db : DB} {now : Int} {rId uId : String}
    {lvl : Nat} {b : Int} (h : nonNegBalances db) (hb : 0 ≤ b) :
    nonNegBalances (processReferralBonus db now rId uId lvl b).2 := by
  unfold processReferralBonus
  cases hfind : getWalletByUserId db rId with
  | none => exact h
  | some w =>
      intro w' hw'
      simp only at hw'
      rcases mem_setWallet hw' with rfl | hmem
      · have hwb : 0 ≤ w.balance :=
          h w (List.mem_of_find?_eq_some hfind)
        simp only
        omega
      · exact h w' hmem

theorem nonNeg_processTipSettle {db : DB} {now : Int} {s r : String} {a : Int}
    {p : Platform} {d : Option String} {anon : Bool} {sw rw : Wallet}
    (h : nonNegBalances db) (ha : 0 ≤ a) (hrw : 0 ≤ rw.balance) :
    nonNegBalances (processTipSettle db now s r a p d anon none sw rw).2 := by
  by_cases hbal : sw.balance < a
  · unfold processTipSettle
    simpa [hbal] using h
  · rw [processTipSettle_eq hbal]
    intro w' hw'
    simp only at hw'
    rcases mem_setWallet hw' with rfl | hmem
    · have := tipFee_le ha
      simp only
      omega
    · rcases mem_setWallet hmem with rfl | hmem2
      · simp only
        omega
      · exact h w' hmem2

theorem nonNeg_processTip {db : DB} {now : Int} {s r : String} {a : Int}
    {p : Platform} (h : nonNegBalances db) (ha : 0 ≤ a) :
    nonNegBalances (processTip db now s r a p none false none).2 := by
  unfold processTip
  by_cases hsr : s = r
  · simpa [hsr] using h
  · simp only [if_neg hsr]
    cases hs : getWalletByUserId db s with
    | none => exact h
    | some sw =>
        cases hr : getWalletByUserId db r with
        | some rw =>
            exact nonNeg_processTipSettle h ha
              (h rw (List.mem_of_find?_eq_some hr))
        | none =>
            simp only [if_neg (by simp : ¬ (none : Option Nat) = some 0)]
            refine nonNeg_processTipSettle ?_ ha (by simp [createWalletData])
            intro w' hw'
            simp only at hw'
            rcases List.mem_append.mp hw' with hmem | hmem
            · exact h w' hmem
            · rcases List.mem_singleton.mp hmem with rfl
              simp [createWalletData]

theorem nonNeg_applyOp {db : DB} {now : Int} {op : WalletOp}
    (h : nonNegBalances db) (hop : op.amountsNonNeg) :
    nonNegBalances (applyOp now db op) := by
  cases op with
  | credit u a => exact nonNeg_creditWallet h hop
  | debit u a f => exact nonNeg_debitWallet h
  | referralBonus rId uId lvl b => exact nonNeg_processReferralBonus h hop
  | tip s r a p => exact nonNeg_processTip h hop

/-! ### Claim C1 -/

/-- Claim C1 as stated is false on the code: `creditWallet` performs no
positivity check, so a single credit of a negative amount drives a
zero-balance wallet negative.  Starting from a store satisfying the
invariant, one `credit("u", -1)` operation violates it. -/
theorem creditWallet_negative_amount_breaks_invariant :
    nonNegBalances
      (⟨[⟨"u", 0, "NGN", 0, 0, 0, 0, 0⟩], [], [], [], [], 0⟩ : DB) ∧
    ¬ nonNegBalances
      (applyOps ⟨[⟨"u", 0, "NGN", 0, 0, 0, 0, 0⟩], [], [], [], [], 0⟩ 0
        [WalletOp.credit "u" (-1)]) := by
  constructor
  · decide
  · decide

/-- Claim C1 (amended): for every store whose wallets all have nonnegative
balances and every sequence of credit / referral-bonus / debit / tip
operations whose amounts are nonnegative, every wallet balance is still
nonnegative after the sequence (hence after each prefix of it). -/
theorem walletOps_preserve_nonneg (db : DB) (now : Int) (ops : List WalletOp)
    (h : nonNegBalances db) (hops : ∀ op ∈ ops, op.amountsNonNeg) :
    nonNegBalances (applyOps db now ops) := by
  induction ops generalizing db with
  | nil => exact h
  | cons op tl ih =>
      have h1 : nonNegBalances (applyOp now db op) :=
        nonNeg_applyOp h (hops op (List.mem_cons_self _ _))
      exact ih _ h1 (fun o ho => hops o (List.mem_cons_of_mem _ ho))

/-- Witness for `walletOps_preserve_nonneg` at a concrete store and a
concrete sequence of one credit, one tip and one debit. -/
theorem walletOps_preserve_nonneg_witness :
    nonNegBalances
      (applyOps ⟨[⟨"a", 1000, "NGN", 0, 0, 0, 0, 0⟩], [], [], [], [], 0⟩ 0
        [WalletOp.credit "a" 200, WalletOp.tip "a" "b" 500 Platform.whatsapp,
         WalletOp.debit "a" 700 0]) :=
  walletOps_preserve_nonneg _ 0 _ (by decide) (by decide)

/-! ### Claim C2 -/

theorem userId_of_getWallet {db : DB} {u : String} {w : Wallet}
    (h : getWalletByUserId db u = some w) : w.userId = u := by
  unfold getWalletByUserId at h
  simpa using List.find?_some h

/-- Claim C2: for every successful tip of gross amount `a` via `processTip`,
the fee is half-up rounding of `a * 2 / 100`, the sender's balance decreases
by exactly `a`, the recipient's balance increases by exactly `a - fee`, and
the transaction records written are exactly one standalone fee transaction of
(signed) amount `-fee` against the sender when `fee > 0`, plus the sender's
`tip_sent` and the recipient's `tip_received` transactions; one completed Tip
record is written. -/
theorem processTip_conservation (db : DB) (now : Int) (s r : String) (a : Int)
    (p : Platform) (d : Option String) (anon : Bool) (sw : Wallet)
    (hsr : s ≠ r) (hsw : getWalletByUserId db s = some sw)
    (hbal : ¬ sw.balance < a) :
    (processTip db now s r a p d anon none).1 =
      TransactionResult.ok (sw.balance - a) ∧
    (getWalletByUserId (processTip db now s r a p d anon none).2 s).map
        Wallet.balance = some (sw.balance - a) ∧
    (getWalletByUserId (processTip db now s r a p d anon none).2 r).map
        Wallet.balance =
      some (((getWalletByUserId db r).getD
        (createWalletData r sw.currency)).balance + (a - tipFee a)) ∧
    tipFee a = roundHalfUp (a * 2) 100 ∧
    (processTip db now s r a p d anon none).2.transactions =
      db.transactions ++
        (if 0 < tipFee a then
          [{ userId := s, type := TxType.fee, amount := -tipFee a,
             description := "Tip processing fee", status := TxStatus.completed,
             currency := sw.currency, fee := 0, netAmount := -tipFee a,
             createdAt := now }]
        else []) ++
        [{ userId := s, type := TxType.tip_sent, amount := -a,
           description := "Tip sent to " ++ r, status := TxStatus.completed,
           currency := sw.currency, fee := tipFee a, netAmount := -a,
           createdAt := now },
         { userId := r, type := TxType.tip_received, amount := a - tipFee a,
           description := "Tip received from " ++ (if anon then "Anonymous" else s),
           status := TxStatus.completed,
           currency := ((getWalletByUserId db r).getD
             (createWalletData r sw.currency)).currency,
           fee := 0, netAmount := a - tipFee a, createdAt := now }] ∧
    (processTip db now s r a p d anon none).2.tips =
      db.tips ++
        [{ senderId := s, recipientId := r, amount := a,
           description := d.getD
             ("Tip received from " ++ (if anon then "Anonymous" else "a user")),
           isAnonymous := anon, status := TxStatus.completed,
           currency := sw.currency, fee := tipFee a, netAmount := a - tipFee a,
           platform := p, createdAt := now }] := by
  have hswid : sw.userId = s := userId_of_getWallet hsw
  cases hr : getWalletByUserId db r with
  | some rw =>
      have hrwid : rw.userId = r := userId_of_getWallet hr
      have hP : processTip db now s r a p d anon none =
          processTipSettle db now s r a p d anon none sw rw := by
        unfold processTip
        rw [if_neg hsr, hsw, hr]
      rw [hP, processTipSettle_eq hbal]
      refine ⟨rfl, ?_, ?_, ?_, ?_, ?_⟩
      · show (List.find? _ _).map _ = _
        rw [find?_setWallet_ne _ hsr (by simp [hrwid]),
          find?_setWallet_self (by exact hsw) (by simp [hswid])]
        rfl
      · show (List.find? _ _).map _ = _
        have h1 : List.find? (fun w => w.userId == r)
            (setWallet db.wallets s
              { sw with balance := sw.balance - a,
                        totalTipsSent := sw.totalTipsSent + a }) = some rw := by
          rw [find?_setWallet_ne _ (Ne.symm hsr) (by simp [hswid])]
          exact hr
        rw [find?_setWallet_self h1 (by simp [hrwid])]
        rfl
      · unfold tipFee roundHalfUp; omega
      · rfl
      · rfl
  | none =>
      have hP : processTip db now s r a p d anon none =
          processTipSettle
            { db with wallets := db.wallets ++ [createWalletData r sw.currency] }
            now s r a p d anon none sw (createWalletData r sw.currency) := by
        unfold processTip
        rw [if_neg hsr, hsw, hr]
        rfl
      have hsw' : List.find? (fun w => w.userId == s)
          (db.wallets ++ [createWalletData r sw.currency]) = some sw := by
        unfold getWalletByUserId at hsw
        rw [List.find?_append, hsw]
        rfl
      have hrw' : List.find? (fun w => w.userId == r)
          (db.wallets ++ [createWalletData r sw.currency]) =
            some (createWalletData r sw.currency) := by
        unfold getWalletByUserId at hr
        rw [List.find?_append, hr]
        simp [createWalletData]
      rw [hP, processTipSettle_eq hbal]
      refine ⟨rfl, ?_, ?_, ?_, ?_, ?_⟩
      · show (List.find? _ _).map _ = _
        rw [find?_setWallet_ne _ hsr rfl,
          find?_setWallet_self (by exact hsw') (by simp [hswid])]
        rfl
      · show (List.find? _ _).map _ = _
        have h1 : List.find? (fun w => w.userId == r)
            (setWallet (db.wallets ++ [createWalletData r sw.currency]) s
              { sw with balance := sw.balance - a,
                        totalTipsSent := sw.totalTipsSent + a }) =
              some (createWalletData r sw.currency) := by
          rw [find?_setWallet_ne _ (Ne.symm hsr) (by simp [hswid])]
          exact hrw'
        rw [find?_setWallet_self h1 rfl]
        rfl
      · unfold tipFee roundHalfUp; omega
      · rfl
      · rfl

/-- Witness for `processTip_conservation`: the spec's example scenario
(balance 1000, tip 500, fee 10, recipient receives 490). -/
theorem processTip_conservation_witness :
    (processTip
      ⟨[⟨"a", 1000, "NGN", 0, 0, 0, 0, 0⟩, ⟨"b", 0, "NGN", 0, 0, 0, 0, 0⟩],
       [], [], [], [], 0⟩ 0 "a" "b" 500 Platform.whatsapp none false none).1 =
      TransactionResult.ok 500 :=
  (processTip_conservation _ 0 "a" "b" 500 Platform.whatsapp none false
    ⟨"a", 1000, "NGN", 0, 0, 0, 0, 0⟩ (by decide) (by rfl) (by decide)).1

/-! ### Claim C3 -/

/-- Claim C3 is contradicted by the code: `processTip` never consults the
tip limit policy.  At the failing input — a tip of 5, below the configured
minimum of 10, from a sender with balance 1000 — the tip completes with both
wallets mutated and a Tip record written, even though
`validateTransactionLimits` itself would reject the amount with the minimum
bound.  (The WhatsApp command layer duplicates the min/max check by hand,
but the mobile-app route reaches `processTip` with any positive amount.) -/
theorem processTip_accepts_amount_below_minimum :
    (processTip
      ⟨[⟨"a", 1000, "NGN", 0, 0, 0, 0, 0⟩, ⟨"b", 0, "NGN", 0, 0, 0, 0, 0⟩],
       [], [], [], [], 0⟩ 0 "a" "b" 5 Platform.whatsapp none false none).1 =
      TransactionResult.ok 995 ∧
    (getWalletByUserId
      (processTip
        ⟨[⟨"a", 1000, "NGN", 0, 0, 0, 0, 0⟩, ⟨"b", 0, "NGN", 0, 0, 0, 0, 0⟩],
         [], [], [], [], 0⟩ 0 "a" "b" 5 Platform.whatsapp none false none).2
      "a").map Wallet.balance = some 995 ∧
    (processTip
      ⟨[⟨"a", 1000, "NGN", 0, 0, 0, 0, 0⟩, ⟨"b", 0, "NGN", 0, 0, 0, 0, 0⟩],
       [], [], [], [], 0⟩ 0 "a" "b" 5 Platform.whatsapp none false none).2.tips.length
      = 1 ∧
    validateTransactionLimits 5 LimitKind.tip [] 0 =
      ⟨false, some (LimitErr.belowMinimum LimitKind.tip 10)⟩ := by
  refine ⟨by decide, by decide, by decide, by decide⟩

/-! ### Claim C4 -/

/-- Claim C4 is false on the code: when the recipient-credit write fails
after the sender-debit write succeeded (`failAt = some 2`), `processTip`'s
`catch` block returns a failure with no compensating credit.  At balance
1000, tip 100, the sender is left at 900 (not the pre-tip 1000) and no Tip
record — failed or otherwise — exists. -/
theorem processTip_credit_failure_no_refund_example :
    (processTip
      ⟨[⟨"a", 1000, "NGN", 0, 0, 0, 0, 0⟩, ⟨"b", 0, "NGN", 0, 0, 0, 0, 0⟩],
       [], [], [], [], 0⟩ 0 "a" "b" 100 Platform.whatsapp none false (some 2)).1.success
      = false ∧
    (getWalletByUserId
      (processTip
        ⟨[⟨"a", 1000, "NGN", 0, 0, 0, 0, 0⟩, ⟨"b", 0, "NGN", 0, 0, 0, 0, 0⟩],
         [], [], [], [], 0⟩ 0 "a" "b" 100 Platform.whatsapp none false (some 2)).2
      "a").map Wallet.balance = some 900 ∧
    (processTip
      ⟨[⟨"a", 1000, "NGN", 0, 0, 0, 0, 0⟩, ⟨"b", 0, "NGN", 0, 0, 0, 0, 0⟩],
       [], [], [], [], 0⟩ 0 "a" "b" 100 Platform.whatsapp none false (some 2)).2.tips
      = [] := by
  refine ⟨by decide, by decide, by decide⟩

/-- Evaluation of the settlement when the recipient wallet update (write 2)
throws: the sender's wallet update has committed, nothing else has. -/
theorem processTipSettle_failAt2 {db : DB} {now : Int} {s r : String}
    {a : Int} {p : Platform} {d : Option String} {anon : Bool}
    {sw rw : Wallet} (hbal : ¬ sw.balance < a) :
    processTipSettle db now s r a p d anon (some 2) sw rw =
      (TransactionResult.failure "Failed to process tip",
       { db with
           wallets := setWallet db.wallets s
             { sw with balance := sw.balance - a,
                       totalTipsSent := sw.totalTipsSent + a } }) := by
  unfold processTipSettle
  rw [if_neg hbal,
    if_neg (by simp : ¬ (some 2 : Option Nat) = some 1), if_pos rfl]

/-- Claim C4 (amended): when the recipient-credit write fails after the
sender-debit write succeeded, `processTip` returns a failure but applies no
compensating credit — the sender's final balance equals the pre-tip balance
minus the gross amount — and no Tip record (failed or otherwise) and no
Transaction record is written; the debited-but-uncredited tip is left
outstanding. -/
theorem processTip_credit_failure_leaves_sender_debited (db : DB) (now : Int)
    (s r : String) (a : Int) (p : Platform) (d : Option String) (anon : Bool)
    (sw : Wallet) (hsr : s ≠ r) (hsw : getWalletByUserId db s = some sw)
    (hbal : ¬ sw.balance < a) :
    (processTip db now s r a p d anon (some 2)).1.success = false ∧
    (getWalletByUserId (processTip db now s r a p d anon (some 2)).2 s).map
        Wallet.balance = some (sw.balance - a) ∧
    (processTip db now s r a p d anon (some 2)).2.tips = db.tips ∧
    (processTip db now s r a p d anon (some 2)).2.transactions =
      db.transactions := by
  have hswid : sw.userId = s := userId_of_getWallet hsw
  cases hr : getWalletByUserId db r with
  | some rw =>
      have hP : processTip db now s r a p d anon (some 2) =
          processTipSettle db now s r a p d anon (some 2) sw rw := by
        unfold processTip
        rw [if_neg hsr, hsw, hr]
      rw [hP, processTipSettle_failAt2 hbal]
      refine ⟨rfl, ?_, rfl, rfl⟩
      show (List.find? _ _).map _ = _
      rw [find?_setWallet_self (by exact hsw) (by simp [hswid])]
      rfl
  | none =>
      have hP : processTip db now s r a p d anon (some 2) =
          processTipSettle
            { db with wallets := db.wallets ++ [createWalletData r sw.currency] }
            now s r a p d anon (some 2) sw (createWalletData r sw.currency) := by
        unfold processTip
        rw [if_neg hsr, hsw, hr]
        rfl
      have hsw' : List.find? (fun w => w.userId == s)
          (db.wallets ++ [createWalletData r sw.currency]) = some sw := by
        unfold getWalletByUserId at hsw
        rw [List.find?_append, hsw]
        rfl
      rw [hP, processTipSettle_failAt2 hbal]
      refine ⟨rfl, ?_, rfl, rfl⟩
      show (List.find? _ _).map _ = _
      rw [find?_setWallet_self (by exact hsw') (by simp [hswid])]
      rfl

/-- Witness for `processTip_credit_failure_leaves_sender_debited` at a
concrete store. -/
theorem processTip_credit_failure_witness :
    (processTip
      ⟨[⟨"a", 600, "NGN", 0, 0, 0, 0, 0⟩], [], [], [], [], 0⟩
      0 "a" "b" 250 Platform.mobile_app none false (some 2)).1.success = false :=
  (processTip_credit_failure_leaves_sender_debited _ 0 "a" "b" 250
    Platform.mobile_app none false ⟨"a", 600, "NGN", 0, 0, 0, 0, 0⟩
    (by decide) (by rfl) (by decide)).1

/-! ### Claim C7 -/

/-- Claim C7 is contradicted by the code: `creditWallet` does not dispatch
on the reason's category.  Crediting a wallet with a received-tip reason
(the tip-link flow does exactly this) bumps `totalDeposits` — not
`totalTipsReceived`, which stays 0 — and writes a `deposit` transaction,
not a tip-category one. -/
theorem creditWallet_ignores_reason_category :
    (creditWallet ⟨[⟨"u", 0, "NGN", 0, 0, 0, 0, 0⟩], [], [], [], [], 0⟩ 0 "u"
      100 "Tip received via link from Anonymous").2.wallets =
      [⟨"u", 100, "NGN", 100, 0, 0, 0, 0⟩] ∧
    (creditWallet ⟨[⟨"u", 0, "NGN", 0, 0, 0, 0, 0⟩], [], [], [], [], 0⟩ 0 "u"
      100 "Tip received via link from Anonymous").2.transactions.map
        Transaction.type = [TxType.deposit] := by
  refine ⟨by decide, by decide⟩

/-- Claim C7 (amended): each credit entry point performs its own fixed
bookkeeping.  `creditWallet` increases the balance by the amount, bumps
`totalDeposits` (whatever the reason says) and writes exactly one completed
`deposit` transaction; `processReferralBonus` increases the balance by the
bonus, bumps `totalReferralEarnings` and writes exactly one completed
`referral_bonus` transaction. -/
theorem credit_entry_points_effects :
    (∀ (db : DB) (now : Int) (u : String) (a : Int) (d : String) (sw : Wallet),
      0 < a → getWalletByUserId db u = some sw →
      creditWallet db now u a d =
        (TransactionResult.ok (sw.balance + a),
         { db with
             wallets := setWallet db.wallets u
               { sw with balance := sw.balance + a,
                         totalDeposits := sw.totalDeposits + a },
             transactions := db.transactions ++
               [{ userId := u, type := TxType.deposit, amount := a,
                  description := d, status := TxStatus.completed,
                  currency := sw.currency, fee := 0, netAmount := a,
                  createdAt := now }] })) ∧
    (∀ (db : DB) (now : Int) (rId uId : String) (lvl : Nat) (b : Int)
        (sw : Wallet),
      0 < b → getWalletByUserId db rId = some sw →
      processReferralBonus db now rId uId lvl b =
        (TransactionResult.ok (sw.balance + b),
         { db with
             wallets := setWallet db.wallets rId
               { sw with balance := sw.balance + b,
                         totalReferralEarnings := sw.totalReferralEarnings + b },
             transactions := db.transactions ++
               [{ userId := rId, type := TxType.referral_bonus, amount := b,
                  description := "Referral bonus for level " ++ toString lvl
                    ++ " referral",
                  status := TxStatus.completed, currency := sw.currency,
                  fee := 0, netAmount := b, createdAt := now }] })) := by
  constructor
  · intro db now u a d sw _ hsw
    unfold creditWallet
    rw [hsw]
  · intro db now rId uId lvl b sw _ hsw
    unfold processReferralBonus
    rw [hsw]

/-- Witness for `credit_entry_points_effects` at a concrete store. -/
theorem credit_entry_points_effects_witness :
    (creditWallet ⟨[⟨"u", 0, "NGN", 0, 0, 0, 0, 0⟩], [], [], [], [], 0⟩ 0 "u"
      50 "Deposit").1 = TransactionResult.ok 50 := by
  have h := credit_entry_points_effects.1
    ⟨[⟨"u", 0, "NGN", 0, 0, 0, 0, 0⟩], [], [], [], [], 0⟩ 0 "u" 50 "Deposit"
    ⟨"u", 0, "NGN", 0, 0, 0, 0, 0⟩ (by decide) (by rfl)
  rw [h]
  rfl

/-! ### Claim C8 -/

/-- Claim C8: `validateTransactionLimits` returns valid exactly when
`minimum ≤ amount ≤ maximum` and the same-type absolute amounts created
since local midnight plus the amount do not exceed the daily cap, with the
bound tables tip [10, 50000] cap 100000, withdrawal [100, 500000] cap
1000000, deposit [100, 2000000] cap 5000000; when invalid it reports the
first violated bound in the order minimum, maximum, daily cap. -/
theorem validateTransactionLimits_spec (a : Int) (k : LimitKind)
    (txs : List Transaction) (today : Int) :
    ((validateTransactionLimits a k txs today).valid = true ↔
      (limitsFor k).minimum ≤ a ∧ a ≤ (limitsFor k).maximum ∧
        todayTypeTotal txs (limitTxType k) today + a ≤ (limitsFor k).dailyLimit) ∧
    (a < (limitsFor k).minimum →
      (validateTransactionLimits a k txs today).error =
        some (LimitErr.belowMinimum k (limitsFor k).minimum)) ∧
    ((limitsFor k).minimum ≤ a → (limitsFor k).maximum < a →
      (validateTransactionLimits a k txs today).error =
        some (LimitErr.aboveMaximum k (limitsFor k).maximum)) ∧
    ((limitsFor k).minimum ≤ a → a ≤ (limitsFor k).maximum →
      (limitsFor k).dailyLimit < todayTypeTotal txs (limitTxType k) today + a →
      (validateTransactionLimits a k txs today).error =
        some (LimitErr.dailyLimitExceeded k (limitsFor k).dailyLimit)) ∧
    limitsFor LimitKind.tip = ⟨10, 50000, 100000⟩ ∧
    limitsFor LimitKind.withdrawal = ⟨100, 500000, 1000000⟩ ∧
    limitsFor LimitKind.deposit = ⟨100, 2000000, 5000000⟩ := by
  simp only [validateTransactionLimits]
  by_cases h1 : a < (limitsFor k).minimum
  · rw [if_pos h1]
    exact ⟨by simp; omega, fun _ => rfl, fun h2 _ => absurd h1 (by omega),
      fun h2 _ _ => absurd h1 (by omega), rfl, rfl, rfl⟩
  · rw [if_neg h1]
    by_cases h2 : (limitsFor k).maximum < a
    · rw [if_pos h2]
      exact ⟨by simp; omega, fun h => absurd h h1, fun _ _ => rfl,
        fun _ h3 _ => absurd h2 (by omega), rfl, rfl, rfl⟩
    · rw [if_neg h2]
      by_cases h3 : (limitsFor k).dailyLimit <
          todayTypeTotal txs (limitTxType k) today + a
      · rw [if_pos h3]
        exact ⟨by simp; omega, fun h => absurd h h1,
          fun _ h => absurd h (by omega), fun _ _ _ => rfl, rfl, rfl, rfl⟩
      · rw [if_neg h3]
        exact ⟨by simp; omega, fun h => absurd h h1,
          fun _ h => absurd h (by omega), fun _ _ h => absurd h h3,
          rfl, rfl, rfl⟩

/-- Witness for `validateTransactionLimits_spec` at a concrete valid tip. -/
theorem validateTransactionLimits_spec_witness :
    (validateTransactionLimits 50 LimitKind.tip [] 0).valid = true ↔
      (limitsFor LimitKind.tip).minimum ≤ 50 ∧
        50 ≤ (limitsFor LimitKind.tip).maximum ∧
        todayTypeTotal [] (limitTxType LimitKind.tip) 0 + 50 ≤
          (limitsFor LimitKind.tip).dailyLimit :=
  (validateTransactionLimits_spec 50 LimitKind.tip [] 0).1

/-! ### Claim C10 -/

/-- Claim C10: neither `creditWallet` nor `debitWallet` checks the sign of
`amount`.  On an existing wallet a credit of any amount (zero or negative
included) succeeds and moves the balance by that amount; a debit succeeds
exactly when `amount ≤ balance`, so on a nonnegative balance a negative
debit succeeds and strictly increases the balance; the only failures are a
missing wallet and, for debit, insufficient balance. -/
theorem credit_debit_sign_unchecked :
    (∀ (db : DB) (now : Int) (u : String) (a : Int) (d : String) (sw : Wallet),
      getWalletByUserId db u = some sw →
      (creditWallet db now u a d).1 = TransactionResult.ok (sw.balance + a)) ∧
    (∀ (db : DB) (now : Int) (u : String) (a : Int) (d : String) (f : Int)
        (sw : Wallet), getWalletByUserId db u = some sw →
      ((debitWallet db now u a d f).1.success = true ↔ a ≤ sw.balance)) ∧
    (∀ (db : DB) (now : Int) (u : String) (a : Int) (d : String) (f : Int)
        (sw : Wallet), getWalletByUserId db u = some sw → a ≤ sw.balance →
      (debitWallet db now u a d f).1 = TransactionResult.ok (sw.balance - a)) ∧
    (∀ (db : DB) (now : Int) (u : String) (a : Int) (d : String) (f : Int)
        (sw : Wallet), getWalletByUserId db u = some sw → a < 0 →
        0 ≤ sw.balance →
      (debitWallet db now u a d f).1 = TransactionResult.ok (sw.balance - a) ∧
        sw.balance < sw.balance - a) ∧
    (∀ (db : DB) (now : Int) (u : String) (a : Int) (d : String) (f : Int),
      getWalletByUserId db u = none →
      creditWallet db now u a d =
        (TransactionResult.failure "Wallet not found", db) ∧
      debitWallet db now u a d f =
        (TransactionResult.failure "Wallet not found", db)) := by
  refine ⟨?_, ?_, ?_, ?_, ?_⟩
  · intro db now u a d sw hsw
    unfold creditWallet
    rw [hsw]
  · intro db now u a d f sw hsw
    unfold debitWallet
    simp only [hsw]
    by_cases hba : sw.balance < a
    · rw [if_pos hba]
      simp [TransactionResult.failure]
      omega
    · rw [if_neg hba]
      simp [TransactionResult.ok]
      omega
  · intro db now u a d f sw hsw hle
    unfold debitWallet
    simp only [hsw]
    rw [if_neg (by omega)]
  · intro db now u a d f sw hsw hneg hnn
    refine ⟨?_, by omega⟩
    unfold debitWallet
    simp only [hsw]
    rw [if_neg (by omega)]
  · intro db now u a d f hnone
    constructor
    · unfold creditWallet
      rw [hnone]
    · unfold debitWallet
      rw [hnone]

/-- Witness for `credit_debit_sign_unchecked`: a credit of -30 and a debit
of -40 on a wallet holding 100 both succeed. -/
theorem credit_debit_sign_unchecked_witness :
    (creditWallet ⟨[⟨"u", 100, "NGN", 0, 0, 0, 0, 0⟩], [], [], [], [], 0⟩ 0 "u"
      (-30) "credit").1 = TransactionResult.ok 70 ∧
    (debitWallet ⟨[⟨"u", 100, "NGN", 0, 0, 0, 0, 0⟩], [], [], [], [], 0⟩ 0 "u"
      (-40) "debit" 0).1 = TransactionResult.ok 140 := by
  have h1 := credit_debit_sign_unchecked.1
    ⟨[⟨"u", 100, "NGN", 0, 0, 0, 0, 0⟩], [], [], [], [], 0⟩ 0 "u" (-30) "credit"
    ⟨"u", 100, "NGN", 0, 0, 0, 0, 0⟩ (by rfl)
  have h2 := credit_debit_sign_unchecked.2.2.1
    ⟨[⟨"u", 100, "NGN", 0, 0, 0, 0, 0⟩], [], [], [], [], 0⟩ 0 "u" (-40) "debit" 0
    ⟨"u", 100, "NGN", 0, 0, 0, 0, 0⟩ (by rfl) (by decide)
  exact ⟨h1, h2⟩

/-! ### Referral bookkeeping lemmas -/

theorem referrals_processReferralBonus (db : DB) (now : Int)
    (rId uId : String) (lvl : Nat) (b : Int) :
    (processReferralBonus db now rId uId lvl b).2.referrals = db.referrals := by
  unfold processReferralBonus
  cases getWalletByUserId db rId <;> rfl

theorem users_processReferralBonus (db : DB) (now : Int)
    (rId uId : String) (lvl : Nat) (b : Int) :
    (processReferralBonus db now rId uId lvl b).2.users = db.users := by
  unfold processReferralBonus
  cases getWalletByUserId db rId <;> rfl

theorem users_createHigherLevelReferral (db : DB) (now : Int)
    (rId uId : String) (lvl : Nat) (b : Int) :
    (createHigherLevelReferral db now rId uId lvl b).users = db.users := by
  simp only [createHigherLevelReferral]
  split
  · rw [users_processReferralBonus]
  · rw [users_processReferralBonus]

/-- Count of referral records matching a status-insensitive predicate after
`createHigherLevelReferral`: the old count plus one for the new record
(reported with `pending` status; the possible completion step does not
change status-insensitive predicates). -/
theorem countP_createHigherLevelReferral (db : DB) (now : Int)
    (rId uId : String) (lvl : Nat) (b : Int) (p : Referral → Bool)
    (hp : ∀ x : Referral, p { x with status := RefStatus.completed } = p x) :
    (createHigherLevelReferral db now rId uId lvl b).referrals.countP p =
      db.referrals.countP p +
        (if p ⟨db.nextId, rId, uId, lvl, b, RefStatus.pending⟩ then 1 else 0) := by
  simp only [createHigherLevelReferral]
  split
  · simp only [List.countP_map, referrals_processReferralBonus]
    rw [List.countP_congr (q := p) ?_]
    · rw [List.countP_append]
      simp [List.countP_cons]
    · intro x _
      show p (if x.id = db.nextId
        then { x with status := RefStatus.completed } else x) = true ↔ p x = true
      by_cases hid : x.id = db.nextId
      · rw [if_pos hid, hp x]
      · rw [if_neg hid]
  · rw [referrals_processReferralBonus]
    show (db.referrals ++ [_]).countP p = _
    rw [List.countP_append]
    simp [List.countP_cons]

theorem users_processHigherLevelReferrals (db : DB) (now : Int)
    (referrerId referredId : String) :
    (processHigherLevelReferrals db now referrerId referredId).users =
      db.users := by
  unfold processHigherLevelReferrals
  cases getUserById db referrerId with
  | none => rfl
  | some referrer =>
      dsimp only
      cases referrer.referredBy with
      | none => rfl
      | some r2id =>
          dsimp only
          cases getUserById
              (createHigherLevelReferral db now r2id referredId 2
                (REFERRAL_BONUSES 2)) r2id with
          | none => exact users_createHigherLevelReferral ..
          | some level2Referrer =>
              dsimp only
              cases level2Referrer.referredBy with
              | none => exact users_createHigherLevelReferral ..
              | some r3id =>
                  dsimp only
                  by_cases he : checkLevel3Eligibility
                      (createHigherLevelReferral db now r2id referredId 2
                        (REFERRAL_BONUSES 2)) now level2Referrer.id
                  · rw [if_pos he, users_createHigherLevelReferral,
                      users_createHigherLevelReferral]
                  · rw [if_neg he]
                    exact users_createHigherLevelReferral ..

/-! ### Claim C5 -/

/-- Number of level-3 referral records naming `referredId`. -/
def level3Count (db : DB) (referredId : String) : Nat :=
  db.referrals.countP (fun x => (x.level == 3) && (x.referredId == referredId))

/-- The exact condition under which the cascade creates a level-3 record:
the level-1 referrer exists and has a referrer R2, R2 exists and has a
referrer R3, and R2 passes the 30-day eligibility check — with no regard to
whether the level-2 referral completed. -/
def level3Created (db : DB) (now : Int) (referrerId : String) : Bool :=
  match getUserById db referrerId with
  | none => false
  | some referrer =>
      match referrer.referredBy with
      | none => false
      | some r2id =>
          match getUserById db r2id with
          | none => false
          | some level2Referrer =>
              match level2Referrer.referredBy with
              | none => false
              | some _ => checkLevel3Eligibility db now level2Referrer.id

/-- Claim C5 is contradicted by the code on the "level-2 completed" conjunct:
with R2 and R3 wallet-less (so the level-2 credit fails and its record stays
`pending`), R2 old enough and the chain r1 → r2 → r3 present, the cascade
still creates a level-3 record. -/
theorem level3_created_without_level2_completed :
    (∃ x ∈ (processHigherLevelReferrals
      ⟨[], [], [], [],
       [⟨"r1", "C1", some "r2", 0⟩, ⟨"r2", "C2", some "r3", 0⟩], 0⟩
      100 "r1" "u").referrals, x.level = 3) ∧
    (∀ x ∈ (processHigherLevelReferrals
      ⟨[], [], [], [],
       [⟨"r1", "C1", some "r2", 0⟩, ⟨"r2", "C2", some "r3", 0⟩], 0⟩
      100 "r1" "u").referrals, x.level = 2 → x.status = RefStatus.pending) := by
  refine ⟨by decide, by decide⟩

/-- Claim C5 (amended): the cascade creates a level-3 record (pending at
creation time) if and only if the level-1 referrer has a referrer R2, R2 has
a referrer R3, and R2's account-creation timestamp is at least 30 days in the
past at cascade time — regardless of the level-2 referral's outcome.  When
the eligibility check fails no level-3 record is created at all. -/
theorem processHigherLevelReferrals_level3_count (db : DB) (now : Int)
    (referrerId referredId : String) :
    level3Count (processHigherLevelReferrals db now referrerId referredId)
        referredId =
      level3Count db referredId +
        (if level3Created db now referrerId then 1 else 0) := by
  have hp : ∀ x : Referral,
      (fun x : Referral => (x.level == 3) && (x.referredId == referredId))
        { x with status := RefStatus.completed } =
      (fun x : Referral => (x.level == 3) && (x.referredId == referredId)) x :=
    fun _ => rfl
  unfold processHigherLevelReferrals level3Created level3Count
  cases h1 : getUserById db referrerId with
  | none => simp
  | some referrer =>
      dsimp only
      cases h2 : referrer.referredBy with
      | none => simp
      | some r2id =>
          dsimp only
          have hcnt1 : (createHigherLevelReferral db now r2id referredId 2
              (REFERRAL_BONUSES 2)).referrals.countP
                (fun x => (x.level == 3) && (x.referredId == referredId)) =
              db.referrals.countP
                (fun x => (x.level == 3) && (x.referredId == referredId)) := by
            rw [countP_createHigherLevelReferral _ _ _ _ _ _ _ hp]
            simp
          have hget : getUserById (createHigherLevelReferral db now r2id
              referredId 2 (REFERRAL_BONUSES 2)) r2id = getUserById db r2id := by
            unfold getUserById
            rw [users_createHigherLevelReferral]
          rw [hget]
          cases h3 : getUserById db r2id with
          | none => simpa using hcnt1
          | some level2Referrer =>
              dsimp only
              cases h4 : level2Referrer.referredBy with
              | none => simpa using hcnt1
              | some r3id =>
                  dsimp only
                  have helig : checkLevel3Eligibility
                      (createHigherLevelReferral db now r2id referredId 2
                        (REFERRAL_BONUSES 2)) now level2Referrer.id =
                      checkLevel3Eligibility db now level2Referrer.id := by
                    unfold checkLevel3Eligibility getUserById
                    rw [users_createHigherLevelReferral]
                  rw [helig]
                  by_cases h5 : checkLevel3Eligibility db now level2Referrer.id
                  · rw [if_pos h5, if_pos h5,
                      countP_createHigherLevelReferral _ _ _ _ _ _ _ hp, hcnt1]
                    simp
                  · rw [if_neg h5, if_neg h5]
                    simpa using hcnt1

/-! ### Claim C6 -/

/-- Number of level-1 referral records for the (referrer, referred) pair. -/
def level1PairCount (db : DB) (referrerId referredId : String) : Nat :=
  db.referrals.countP (fun x =>
    (x.referrerId == referrerId) && (x.referredId == referredId) &&
      (x.level == 1))

theorem countP_completeMap (l : List Referral) (rid : Nat) (p : Referral → Bool)
    (hp : ∀ x : Referral, p { x with status := RefStatus.completed } = p x) :
    (l.map (fun x =>
      if x.id = rid then { x with status := RefStatus.completed } else x)).countP
        p = l.countP p := by
  rw [List.countP_map, List.countP_congr (q := p) ?_]
  intro x _
  show p (if x.id = rid
    then { x with status := RefStatus.completed } else x) = true ↔ p x = true
  by_cases hid : x.id = rid
  · rw [if_pos hid, hp x]
  · rw [if_neg hid]

theorem level1PairCount_processHigherLevelReferrals (db : DB) (now : Int)
    (a b r u : String) :
    level1PairCount (processHigherLevelReferrals db now a b) r u =
      level1PairCount db r u := by
  have hp : ∀ x : Referral,
      (fun x : Referral => (x.referrerId == r) && (x.referredId == u) &&
        (x.level == 1)) { x with status := RefStatus.completed } =
      (fun x : Referral => (x.referrerId == r) && (x.referredId == u) &&
        (x.level == 1)) x := fun _ => rfl
  unfold processHigherLevelReferrals level1PairCount
  cases getUserById db a with
  | none => rfl
  | some referrer =>
      dsimp only
      cases referrer.referredBy with
      | none => rfl
      | some r2id =>
          dsimp only
          cases getUserById
              (createHigherLevelReferral db now r2id b 2
                (REFERRAL_BONUSES 2)) r2id with
          | none =>
              rw [countP_createHigherLevelReferral _ _ _ _ _ _ _ hp]
              simp
          | some level2Referrer =>
              dsimp only
              cases level2Referrer.referredBy with
              | none =>
                  rw [countP_createHigherLevelReferral _ _ _ _ _ _ _ hp]
                  simp
              | some r3id =>
                  dsimp only
                  by_cases he : checkLevel3Eligibility
                      (createHigherLevelReferral db now r2id b 2
                        (REFERRAL_BONUSES 2)) now level2Referrer.id
                  · rw [if_pos he,
                      countP_createHigherLevelReferral _ _ _ _ _ _ _ hp,
                      countP_createHigherLevelReferral _ _ _ _ _ _ _ hp]
                    simp
                  · rw [if_neg he,
                      countP_createHigherLevelReferral _ _ _ _ _ _ _ hp]
                    simp

theorem users_processReferral (db : DB) (now : Int) (a b : String) :
    (processReferral db now a b).2.users = db.users := by
  unfold processReferral
  cases getUserById db a with
  | none => rfl
  | some referrer =>
      dsimp only
      cases getReferralByUsers db a b with
      | some x => rfl
      | none =>
          dsimp only
          split
          · rw [users_processHigherLevelReferrals]
            show (processReferralBonus _ _ _ _ _ _).2.users = _
            rw [users_processReferralBonus]
          · rw [users_processReferralBonus]

/-- When a referral record for the (referrer, referred) pair already exists
(and the referrer is a valid user), `processReferral` rejects with the
already-exists error and leaves the store untouched. -/
theorem processReferral_existing (db : DB) (now : Int) (r1 u2 : String)
    (usr : User) (y : Referral) (hu : getUserById db r1 = some usr)
    (hy : getReferralByUsers db r1 u2 = some y) :
    processReferral db now r1 u2 =
      (⟨false, false, some "Referral already exists"⟩, db) := by
  unfold processReferral
  rw [hu]
  dsimp only
  rw [hy]

/-- Claim C6: running the cascade twice for the same (referrer, referred)
pair — starting from a store with no record for the pair and a valid
referrer — leaves exactly one level-1 Referral record for the pair; the
second invocation returns the already-exists failure and changes nothing
(no record created, no bonus credited). -/
theorem processReferral_idempotent (db : DB) (now : Int) (r1 u2 : String)
    (usr : User) (hu : getUserById db r1 = some usr)
    (hn : getReferralByUsers db r1 u2 = none) :
    (processReferral (processReferral db now r1 u2).2 now r1 u2).1 =
      ⟨false, false, some "Referral already exists"⟩ ∧
    (processReferral (processReferral db now r1 u2).2 now r1 u2).2 =
      (processReferral db now r1 u2).2 ∧
    level1PairCount (processReferral db now r1 u2).2 r1 u2 = 1 := by
  have hzero : level1PairCount db r1 u2 = 0 := by
    unfold level1PairCount
    rw [List.countP_eq_zero]
    intro x hx
    have hnx := (List.find?_eq_none.mp hn) x hx
    intro hcontra
    simp only [Bool.and_eq_true] at hcontra
    exact hnx (by
      simp only [Bool.and_eq_true]
      exact hcontra.1)
  have hcount : level1PairCount (processReferral db now r1 u2).2 r1 u2 = 1 := by
    have hp : ∀ x : Referral,
        (fun x : Referral => (x.referrerId == r1) && (x.referredId == u2) &&
          (x.level == 1)) { x with status := RefStatus.completed } =
        (fun x : Referral => (x.referrerId == r1) && (x.referredId == u2) &&
          (x.level == 1)) x := fun _ => rfl
    unfold processReferral
    rw [hu]
    dsimp only
    rw [hn]
    dsimp only
    split
    · dsimp only
      show level1PairCount (processHigherLevelReferrals _ now r1 u2) r1 u2 = 1
      rw [level1PairCount_processHigherLevelReferrals]
      unfold level1PairCount
      dsimp only
      rw [countP_completeMap _ _ _ hp, referrals_processReferralBonus]
      dsimp only
      unfold level1PairCount at hzero
      rw [List.countP_append, hzero]
      simp [List.countP_cons]
    · dsimp only
      show level1PairCount (processReferralBonus _ now r1 u2 1
        (REFERRAL_BONUSES 1)).2 r1 u2 = 1
      unfold level1PairCount
      rw [referrals_processReferralBonus]
      dsimp only
      unfold level1PairCount at hzero
      rw [List.countP_append, hzero]
      simp [List.countP_cons]
  have husers : (processReferral db now r1 u2).2.users = db.users :=
    users_processReferral ..
  have hu' : getUserById (processReferral db now r1 u2).2 r1 = some usr := by
    unfold getUserById
    rw [husers]
    exact hu
  have hpos : 0 < (processReferral db now r1 u2).2.referrals.countP
      (fun x => (x.referrerId == r1) && (x.referredId == u2) &&
        (x.level == 1)) := by
    have := hcount
    unfold level1PairCount at this
    omega
  obtain ⟨x, hx, hpx⟩ := List.countP_pos_iff.mp hpos
  have hy : ∃ y, getReferralByUsers (processReferral db now r1 u2).2 r1 u2 =
      some y := by
    have hsome : (getReferralByUsers (processReferral db now r1 u2).2 r1
        u2).isSome = true := by
      unfold getReferralByUsers
      rw [List.find?_isSome]
      simp only [Bool.and_eq_true] at hpx
      refine ⟨x, hx, ?_⟩
      simp only [Bool.and_eq_true]
      exact hpx.1
    exact Option.isSome_iff_exists.mp hsome
  obtain ⟨y, hy⟩ := hy
  rw [processReferral_existing _ now r1 u2 usr y hu' hy]
  exact ⟨rfl, rfl, hcount⟩

/-- Witness for `processReferral_idempotent` at a concrete store (referrer
exists, wallet-less, no prior referral). -/
theorem processReferral_idempotent_witness :
    (processReferral
      (processReferral ⟨[], [], [], [], [⟨"r1", "C1", none, 0⟩], 0⟩ 0 "r1"
        "u2").2 0 "r1" "u2").1 =
      ⟨false, false, some "Referral already exists"⟩ :=
  (processReferral_idempotent ⟨[], [], [], [], [⟨"r1", "C1", none, 0⟩], 0⟩ 0
    "r1" "u2" ⟨"r1", "C1", none, 0⟩ (by rfl) (by rfl)).1

/-! ### Claim C9 -/

/-- Claim C9: a self tip is rejected with the self-tip error and the store
is returned unchanged — no wallet mutation, no Tip and no Transaction
record. -/
theorem processTip_self_tip_rejected (db : DB) (now : Int) (u : String)
    (a : Int) (p : Platform) (d : Option String) (anon : Bool)
    (failAt : Option Nat) :
    processTip db now u u a p d anon failAt =
      (TransactionResult.failure "Cannot tip yourself", db) := by
  unfold processTip
  rw [if_pos rfl]

end Givta
